import Mathlib

/-
  Verification of the job-organizer browser extension's schema-driven
  form engine.

  Shallow embedding of:
    - src/lib/notion-api.js       (PropertyFormatters, PropertyParsers)
    - src/unnamed/part_003 / part_004 (popup script: buildPayload,
      getFieldValue, findBestLocationMatch, renderTitleField,
      renderRichTextField, fillFormField, handleSubmit,
      handleBackgroundSave)

  JavaScript strings are modelled as lists of characters (Str).
  String.prototype.toLowerCase is modelled on the ASCII range (every
  input exercised by the claims is ASCII).  A Notion rich-text run is
  identified with its text content: the store echoes text.content back
  as plain_text, which is what the parsers read.
-/

namespace JobOrganizer

/-- JavaScript strings, modelled as lists of characters. -/
abbrev Str := List Char

/-- ASCII model of the lower-casing performed by String.prototype.toLowerCase. -/
def asciiLower (c : Char) : Char :=
  if 'A' ≤ c ∧ c ≤ 'Z' then Char.ofNat (c.toNat + 32) else c

/-- Lower-case a JS string (ASCII model of s.toLowerCase()). -/
def lowerStr (s : Str) : Str := s.map asciiLower

/-- ASCII whitespace recognised by String.prototype.trim and parseFloat. -/
def jsIsSpace (c : Char) : Bool :=
  c = ' ' ∨ c = '\t' ∨ c = '\n' ∨ c = '\r' ∨ c = '\x0b' ∨ c = '\x0c'

/-- Model of s.trim(): strip leading and trailing whitespace. -/
def trimStr (s : Str) : Str :=
  ((s.dropWhile jsIsSpace).reverse.dropWhile jsIsSpace).reverse

/-- Model of s.includes(pat): substring containment (true for the empty pattern). -/
def containsSub (s pat : Str) : Bool :=
  match s with
  | [] => pat.isEmpty
  | _ :: rest => pat.isPrefixOf s || containsSub rest pat

/-- Regex word character, \w = [A-Za-z0-9_]. -/
def isWordChar (c : Char) : Bool :=
  ('a' ≤ c ∧ c ≤ 'z') ∨ ('A' ≤ c ∧ c ≤ 'Z') ∨ ('0' ≤ c ∧ c ≤ '9') ∨ c = '_'

/-- Model of the regex test pat(?!\w) on s: some occurrence of pat is not
followed by a word character. -/
def occursHardEnd (pat : Str) : Str → Bool
  | [] => pat.isEmpty
  | c :: rest =>
      (pat.isPrefixOf (c :: rest) &&
        (match (c :: rest).drop pat.length with
         | [] => true
         | d :: _ => ! isWordChar d)) || occursHardEnd pat rest

/-- Suffix of s following the first occurrence of pat, if pat occurs in s. -/
def afterSub (pat : Str) : Str → Option Str
  | [] => if pat.isEmpty then some [] else none
  | c :: rest =>
      if pat.isPrefixOf (c :: rest) then some ((c :: rest).drop pat.length)
      else afterSub pat rest

/-- JS short-circuit or on strings: a || b (the empty string is falsy). -/
def jsOrStr (a b : Str) : Str := if a = [] then b else a

/-- A JavaScript number: NaN, signed Infinity, or a finite value
(finite doubles are modelled as rationals). -/
inductive JsNum
  | nan
  | infinite (neg : Bool)
  | num (q : ℚ)
deriving DecidableEq

/-- Decimal digit test used by the parseFloat model. -/
def jsDigit (c : Char) : Bool := '0' ≤ c ∧ c ≤ '9'

/-- Numeric value of a digit string. -/
def digitsToNat (ds : Str) : Nat :=
  ds.foldl (fun acc c => acc * 10 + (c.toNat - '0'.toNat)) 0

/-- Model of JavaScript parseFloat: skip leading whitespace, optional sign,
then either an Infinity literal or the longest prefix of the shape
digits [. digits] [e|E [sign] digits]; NaN when no mantissa digit is found.
Finite values are exact rationals (the claims except float formatting drift). -/
def jsParseFloat (s : Str) : JsNum :=
  let s1 := s.dropWhile jsIsSpace
  let signAndRest : Bool × Str :=
    match s1 with
    | '-' :: r => (true, r)
    | '+' :: r => (false, r)
    | _ => (false, s1)
  let neg := signAndRest.1
  let s2 := signAndRest.2
  if ("Infinity".toList).isPrefixOf s2 then JsNum.infinite neg
  else
    let intPart := s2.takeWhile jsDigit
    let afterInt := s2.dropWhile jsDigit
    let fracAndRest : Str × Str :=
      match afterInt with
      | '.' :: r => (r.takeWhile jsDigit, r.dropWhile jsDigit)
      | _ => ([], afterInt)
    let fracPart := fracAndRest.1
    let afterFrac := fracAndRest.2
    if intPart = [] ∧ fracPart = [] then JsNum.nan
    else
      let mantissa : ℚ :=
        (digitsToNat (intPart ++ fracPart) : ℚ) / ((10 : ℚ) ^ fracPart.length)
      let expo : Int :=
        match afterFrac with
        | c :: r =>
          if c = 'e' ∨ c = 'E' then
            let esignAndRest : Bool × Str :=
              match r with
              | '-' :: rr => (true, rr)
              | '+' :: rr => (false, rr)
              | _ => (false, r)
            let eds := esignAndRest.2.takeWhile jsDigit
            if eds = [] then 0
            else if esignAndRest.1 then -(digitsToNat eds : Int) else (digitsToNat eds : Int)
          else 0
        | [] => 0
      let v : ℚ := mantissa * (10 : ℚ) ^ expo
      JsNum.num (if neg then -v else v)

/-! ## Property Type Registry (src/lib/notion-api.js)

Each formatter maps a form value to the payload of the column's wire
value; each parser maps that payload back to a form value.  A rich-text
run is identified with its content string. -/

/-- Notion's per-run size cap, MAX_CHARS in PropertyFormatters.rich_text
(src/lib/notion-api.js:181). -/
def MAX_CHARS : Nat := 2000

/-- Fuel-indexed chunking loop; every iteration consumes at least one
character, so fuel = content.length suffices for a complete run. -/
def chunksAux (fuel : Nat) (content : Str) : List Str :=
  match fuel, content with
  | _, [] => []
  | 0, _ => []
  | fuel + 1, c :: rest =>
      (c :: rest).take MAX_CHARS :: chunksAux fuel ((c :: rest).drop MAX_CHARS)

/-- The chunking loop of PropertyFormatters.rich_text
(src/lib/notion-api.js:183-189): successive slices of MAX_CHARS characters. -/
def chunksOf2000 (content : Str) : List Str :=
  chunksAux content.length content

/-- Form value of a number field: the empty value (JS empty string or null)
or a JavaScript number. -/
inductive NumberFormValue
  | empty
  | num (n : JsNum)
deriving DecidableEq

namespace PropertyFormatters

/-- title formatter (src/lib/notion-api.js:165-173): a single run of
value || ''. -/
def title (value : Str) : List Str := [jsOrStr value []]

/-- rich_text formatter (src/lib/notion-api.js:179-191): chunk the content
at MAX_CHARS; emit one empty run when there are no chunks. -/
def rich_text (value : Str) : List Str :=
  let blocks := chunksOf2000 value
  if blocks.isEmpty then [[]] else blocks

/-- url formatter (src/lib/notion-api.js:193-195): value || null. -/
def url (value : Str) : Option Str := if value = [] then none else some value

/-- number formatter (src/lib/notion-api.js:197-199) on the raw input
string: null when empty, otherwise parseFloat of the input. -/
def number (value : Str) : Option JsNum :=
  if value = [] then none else some (jsParseFloat value)

/-- number formatter on the value delivered by getFieldValue (a JS number
or null).  parseFloat applied to a JS number re-parses its decimal
rendering and returns the same number, so the numeric branch is the
identity. -/
def numberOfForm : NumberFormValue → Option JsNum
  | .empty => none
  | .num n => some n

/-- checkbox formatter (src/lib/notion-api.js:201-203): Boolean(value). -/
def checkbox (value : Bool) : Bool := value

/-- select formatter (src/lib/notion-api.js:205-207): {name} wrapper or null. -/
def select (value : Str) : Option Str := if value = [] then none else some value

/-- multi_select formatter (src/lib/notion-api.js:209-213): list of names. -/
def multi_select (values : List Str) : List Str := values

/-- date formatter (src/lib/notion-api.js:215-217): {start} wrapper or null. -/
def date (value : Str) : Option Str := if value = [] then none else some value

/-- email formatter (src/lib/notion-api.js:219-221): value || null. -/
def email (value : Str) : Option Str := if value = [] then none else some value

/-- phone_number formatter (src/lib/notion-api.js:223-225): value || null. -/
def phone_number (value : Str) : Option Str := if value = [] then none else some value

/-- status formatter (src/lib/notion-api.js:227-229): {name} wrapper or null. -/
def status (value : Str) : Option Str := if value = [] then none else some value

end PropertyFormatters

namespace PropertyParsers

/-- title parser (src/lib/notion-api.js:237-239): first run's plain text or ''. -/
def title (runs : List Str) : Str := jsOrStr (runs.headD []) []

/-- rich_text parser (src/lib/notion-api.js:241-243): it reads only the
FIRST run's plain text (or ''). -/
def rich_text (runs : List Str) : Str := jsOrStr (runs.headD []) []

/-- url parser (src/lib/notion-api.js:245-247): property.url || ''. -/
def url (v : Option Str) : Str :=
  match v with
  | some s => jsOrStr s []
  | none => []

/-- number parser (src/lib/notion-api.js:249-251): the number when not
null, otherwise the empty form value. -/
def number (v : Option JsNum) : NumberFormValue :=
  match v with
  | some n => .num n
  | none => .empty

/-- checkbox parser (src/lib/notion-api.js:253-255): property.checkbox || false. -/
def checkbox (v : Bool) : Bool := v || false

/-- select parser (src/lib/notion-api.js:257-259): select?.name || ''. -/
def select (v : Option Str) : Str :=
  match v with
  | some s => jsOrStr s []
  | none => []

/-- multi_select parser (src/lib/notion-api.js:261-263): the option names. -/
def multi_select (v : List Str) : List Str := v

/-- date parser (src/lib/notion-api.js:265-267): date?.start || ''. -/
def date (v : Option Str) : Str :=
  match v with
  | some s => jsOrStr s []
  | none => []

/-- email parser (src/lib/notion-api.js:269-271). -/
def email (v : Option Str) : Str :=
  match v with
  | some s => jsOrStr s []
  | none => []

/-- phone_number parser (src/lib/notion-api.js:273-275). -/
def phone_number (v : Option Str) : Str :=
  match v with
  | some s => jsOrStr s []
  | none => []

/-- status parser (src/lib/notion-api.js:277-279): status?.name || ''. -/
def status (v : Option Str) : Str :=
  match v with
  | some s => jsOrStr s []
  | none => []

end PropertyParsers

/-- JSON emission of the number wire slot performed by the service worker
(JSON.stringify at src/background/service-worker.js:51): NaN and the
infinities have no JSON representation and are emitted as null; finite
numbers are emitted as numbers. -/
def jsonNumberValue : Option JsNum → Option ℚ
  | none => none
  | some .nan => none
  | some (.infinite _) => none
  | some (.num q) => some q

/-! ## Location/Option Matcher (src/unnamed/part_004:1000-1073) -/

/-- A choice-type option from the database schema. -/
structure SelectOption where
  name : Str
deriving DecidableEq

/-- First option satisfying p, projected to its name: one for-loop of
findBestLocationMatch. -/
def firstMatch (p : SelectOption → Bool) (options : List SelectOption) : Option Str :=
  (options.find? p).map SelectOption.name

/-- The city/metro keyword families of findBestLocationMatch
(src/unnamed/part_004:1036-1046).  Each entry is the regex test applied
to the lower-cased location, paired with the family's keywords.  The
regexes /washington.*dc/ etc. are modelled for newline-free strings. -/
def cityStatePatterns : List ((Str → Bool) × List Str) :=
  [ (fun l => containsSub l ("san francisco".toList) || containsSub l ("sf".toList) ||
        containsSub l ("bay area".toList),
     [("san francisco".toList), ("sf".toList), ("bay area".toList)]),
    (fun l => containsSub l ("new york".toList) || containsSub l ("nyc".toList) ||
        occursHardEnd ("ny".toList) l,
     [("new york".toList), ("nyc".toList), ("ny".toList)]),
    (fun l => containsSub l ("los angeles".toList) || occursHardEnd ("la".toList) l,
     [("los angeles".toList), ("la".toList)]),
    (fun l => (match afterSub ("washington".toList) l with
               | some suffix => containsSub suffix ("dc".toList)
               | none => false) || occursHardEnd ("dc".toList) l,
     [("washington".toList), ("dc".toList)]),
    (fun l => containsSub l ("boston".toList) || occursHardEnd ("ma".toList) l,
     [("boston".toList), ("ma".toList)]),
    (fun l => containsSub l ("chicago".toList) || occursHardEnd ("il".toList) l,
     [("chicago".toList), ("il".toList)]),
    (fun l => containsSub l ("seattle".toList) || occursHardEnd ("wa".toList) l,
     [("seattle".toList), ("wa".toList)]),
    (fun l => containsSub l ("austin".toList) || occursHardEnd ("tx".toList) l,
     [("austin".toList), ("tx".toList)]),
    (fun l => containsSub l ("denver".toList) || occursHardEnd ("co".toList) l,
     [("denver".toList), ("co".toList)]) ]

/-- The two nested loops of strategy 5 (src/unnamed/part_004:1048-1057):
for each family whose pattern tests true, return the first option
containing one of its keywords; a family with no matching option falls
through to the next family. -/
def matchFamilies (location : Str) (options : List SelectOption) :
    List ((Str → Bool) × List Str) → Option Str
  | [] => none
  | (test, keywords) :: rest =>
    if test location then
      match firstMatch
          (fun o => keywords.any (fun k => containsSub (lowerStr o.name) k)) options with
      | some n => some n
      | none => matchFamilies location options rest
    else matchFamilies location options rest

/-- ASCII uppercase test, the regex class [A-Z]. -/
def isUpperAZ (c : Char) : Bool := 'A' ≤ c ∧ c ≤ 'Z'

/-- Attempt of the state-code regex right after a comma: \s* then two
uppercase letters then a word boundary. -/
def stateAfterComma (s : Str) : Option Str :=
  match s.dropWhile jsIsSpace with
  | a :: b :: t =>
      if isUpperAZ a && isUpperAZ b &&
          (match t with
           | [] => true
           | d :: _ => ! isWordChar d) then some [a, b]
      else none
  | _ => none

/-- Model of location.match(/,\s*([A-Z]{2})\b/) at strategy 6
(src/unnamed/part_004:1062): the captured two-letter group of the first
match, scanning start positions left to right. -/
def findStateCode : Str → Option Str
  | [] => none
  | c :: rest =>
      match (if c = ',' then stateAfterComma rest else none) with
      | some code => some code
      | none => findStateCode rest

/-- findBestLocationMatch (src/unnamed/part_004:1000-1073): tiered
matching of a free-text location against a column's options; the six
strategies are tried in order, first hit wins. -/
def findBestLocationMatch (extractedLocation : Str) (options : List SelectOption) :
    Option Str :=
  if extractedLocation = [] ∨ options = [] then none
  else
    let location := trimStr (lowerStr extractedLocation)
    (firstMatch (fun o => lowerStr o.name = location) options) <|>
    (firstMatch (fun o => containsSub (lowerStr o.name) location) options) <|>
    (firstMatch (fun o => containsSub location (lowerStr o.name)) options) <|>
    (if containsSub location ("remote".toList) then
       firstMatch (fun o => containsSub (lowerStr o.name) ("remote".toList)) options
     else none) <|>
    (matchFamilies location options cityStatePatterns) <|>
    (match findStateCode location with
     | some code =>
         firstMatch (fun o => containsSub (lowerStr o.name) (lowerStr code)) options
     | none => none)

/-! ## Payload Builder (src/unnamed/part_003:1781-1807, part_004:3114-3140)

A form group is the rendered input state of one schema column; its
constructor is the column's dataset.propertyType and its argument the
widget state read by getFieldValue. -/

/-- One rendered form group: column type together with its current widget
state. -/
inductive FieldEntry
  | title (v : Str)
  | rich_text (v : Str)
  | url (v : Str)
  | number (input : Str)
  | checkbox (checked : Bool)
  | select (v : Str)
  | multi_select (selected : List Str)
  | date (v : Str)
  | email (v : Str)
  | phone_number (v : Str)
  | status (v : Str)
deriving DecidableEq

/-- A JavaScript value as produced by getFieldValue. -/
inductive JsVal
  | str (s : Str)
  | bool (b : Bool)
  | arr (vs : List Str)
  | jsnum (n : JsNum)
  | null
deriving DecidableEq

/-- getFieldValue (src/unnamed/part_003:1814-1842): checkbox reads the
checked flag, multi_select the parsed hidden input, number is parseFloat
of the raw input or null when empty, every other type reads
input.value || ''. -/
def getFieldValue : FieldEntry → JsVal
  | .checkbox b => .bool b
  | .multi_select vs => .arr vs
  | .number input => if input = [] then .null else .jsnum (jsParseFloat input)
  | .title v | .rich_text v | .url v | .select v | .date v
  | .email v | .phone_number v | .status v => .str (jsOrStr v [])

/-- The guard value !== '' && value !== null && value !== undefined of
buildPayload: booleans, arrays and numbers (NaN included) pass; the empty
string and null fail. -/
def jsPresent : JsVal → Bool
  | .str s => s ≠ []
  | .bool _ => true
  | .arr _ => true
  | .jsnum _ => true
  | .null => false

/-- Wire value of one column as put into the properties payload. -/
inductive WireValue
  | title (runs : List Str)
  | richText (runs : List Str)
  | url (v : Option Str)
  | number (v : Option JsNum)
  | checkbox (b : Bool)
  | select (v : Option Str)
  | multiSelect (names : List Str)
  | date (v : Option Str)
  | email (v : Option Str)
  | phoneNumber (v : Option Str)
  | status (v : Option Str)
deriving DecidableEq

/-- formatter(value) in buildPayload: the registry formatter of the
group's type applied to its getFieldValue result.  For number the
composition parseFloat(parseFloat(input)) collapses to parseFloat(input),
since parseFloat of a JS number re-parses its own decimal rendering. -/
def applyFormatter : FieldEntry → WireValue
  | .title v => .title (PropertyFormatters.title (jsOrStr v []))
  | .rich_text v => .richText (PropertyFormatters.rich_text (jsOrStr v []))
  | .url v => .url (PropertyFormatters.url (jsOrStr v []))
  | .number input => .number (if input = [] then none else some (jsParseFloat input))
  | .checkbox b => .checkbox (PropertyFormatters.checkbox b)
  | .select v => .select (PropertyFormatters.select (jsOrStr v []))
  | .multi_select vs => .multiSelect (PropertyFormatters.multi_select vs)
  | .date v => .date (PropertyFormatters.date (jsOrStr v []))
  | .email v => .email (PropertyFormatters.email (jsOrStr v []))
  | .phone_number v => .phoneNumber (PropertyFormatters.phone_number (jsOrStr v []))
  | .status v => .status (PropertyFormatters.status (jsOrStr v []))

/-- Whether the group's type is title (the type === 'title' check of
buildPayload). -/
def isTitleEntry : FieldEntry → Bool
  | .title _ => true
  | _ => false

/-- The fixed placeholder substituted for an empty title
(src/unnamed/part_003:1803). -/
def untitledStr : Str := "Untitled".toList

/-- The string carried by a getFieldValue result (used only on the title
branch, whose value is always a string). -/
def strOfJsVal : JsVal → Str
  | .str s => s
  | _ => []

/-- buildPayload (src/unnamed/part_003:1781-1807): walk the form groups in
order; skip hidden fields; include a field whose value passes the
presence guard; a title field whose value fails the guard is still
included with value || 'Untitled'. -/
def buildPayload (groups : List (Str × FieldEntry)) (hiddenFields : List Str) :
    List (Str × WireValue) :=
  match groups with
  | [] => []
  | (name, entry) :: rest =>
    if name ∈ hiddenFields then buildPayload rest hiddenFields
    else if jsPresent (getFieldValue entry) then
      (name, applyFormatter entry) :: buildPayload rest hiddenFields
    else if isTitleEntry entry then
      (name, .title (PropertyFormatters.title
          (jsOrStr (strOfJsVal (getFieldValue entry)) untitledStr)))
        :: buildPayload rest hiddenFields
    else buildPayload rest hiddenFields

/-! ## Field-name heuristics and pre-population
(src/unnamed/part_004:900-1135) -/

/-- isRoleField (src/unnamed/part_004:984-992). -/
def isRoleField (name : Str) : Bool :=
  let l := lowerStr name
  l = ("role".toList) || l = ("role name".toList) || l = ("job title".toList) ||
  l = ("position".toList) || l = ("title".toList) ||
  containsSub l ("job title".toList) || containsSub l ("position".toList)

/-- isCompanyNameField (src/unnamed/part_004:953-963): company-name
labels, explicitly excluding summary/description/about fields. -/
def isCompanyNameField (name : Str) : Bool :=
  let l := lowerStr name
  if containsSub l ("summary".toList) || containsSub l ("description".toList) ||
      containsSub l ("about".toList) then false
  else
    l = ("company".toList) || l = ("company name".toList) ||
    l = ("organization".toList) || l = ("employer".toList)

/-- isRawJdField (src/unnamed/part_004:968-978). -/
def isRawJdField (name : Str) : Bool :=
  let l := lowerStr name
  l = ("raw jd".toList) || l = ("raw_jd".toList) || l = ("rawjd".toList) ||
  l = ("raw job description".toList) || l = ("raw_job_description".toList) ||
  containsSub l ("raw jd".toList) || containsSub l ("raw_jd".toList)

/-- The heuristic page signals available to the renderers (tab /
tabInfo). -/
structure TabSignals where
  url : Str
  title : Str
  roleName : Str
  companyName : Str
  location : Str
  selectedText : Str
deriving DecidableEq

/-- Parsed column values of an existing row: null, or a map from column
name to parsed form value (string-typed fields). -/
abbrev ExistingData := Option (List (Str × Str))

/-- existingData[name]: lookup in the parsed existing-row map. -/
def edLookup (ed : List (Str × Str)) (name : Str) : Option Str :=
  (ed.find? (fun p => p.1 = name)).map Prod.snd

/-- The guard existingData && existingData[name]: truthy exactly when the
map is non-null and holds a non-empty value for the name. -/
def edTruthy (ed? : ExistingData) (name : Str) : Bool :=
  match ed? with
  | none => false
  | some ed =>
    match edLookup ed name with
    | some v => v ≠ []
    | none => false

/-- The initial input value computed by renderTitleField
(src/unnamed/part_004:900-925): default from signals (roleName for
role-like names, companyName for company-name fields, else the tab
title), overridden by (existingData && existingData[name]) || default. -/
def renderTitleValue (name : Str) (tab : TabSignals) (ed? : ExistingData) : Str :=
  let dv0 := jsOrStr tab.title []
  let dv :=
    if ¬ edTruthy ed? name then
      if isRoleField name && tab.roleName ≠ [] then tab.roleName
      else if isCompanyNameField name && tab.companyName ≠ [] then tab.companyName
      else dv0
    else dv0
  match ed? with
  | none => dv
  | some ed => jsOrStr ((edLookup ed name).getD []) dv

/-- The initial input value computed by renderRichTextField
(src/unnamed/part_004:1078-1119): default '' unless the name marks a
role, company-name or raw-JD field, overridden by
(existingData && existingData[name]) || default. -/
def renderRichTextValue (name : Str) (tab : TabSignals) (ed? : ExistingData) : Str :=
  let dv :=
    if ¬ edTruthy ed? name then
      if isRoleField name && tab.roleName ≠ [] then tab.roleName
      else if isCompanyNameField name && tab.companyName ≠ [] then tab.companyName
      else if isRawJdField name && tab.selectedText ≠ [] then tab.selectedText
      else []
    else []
  match ed? with
  | none => dv
  | some ed => jsOrStr ((edLookup ed name).getD []) dv

/-! ## Reconciliation Controller (src/unnamed/part_004:1443-1800) -/

/-- The popup session state relevant to create-vs-update: the id of the
existing row when one was found (existingPageId). -/
structure PopupSession where
  existingPageId : Option Str
deriving DecidableEq

/-- A call issued against the external store. -/
inductive NotionCall
  | createPage (properties : List (Str × WireValue))
  | updatePage (pageId : Str) (properties : List (Str × WireValue))
deriving DecidableEq

/-- handleSubmit (src/unnamed/part_004:1443-1497): one update call when
an existing row id is present, otherwise one create call; newId is the id
the store assigns to a created row.  existingPageId is not modified on
either branch. -/
def handleSubmitStep (st : PopupSession) (properties : List (Str × WireValue))
    (_newId : Str) : List NotionCall × PopupSession :=
  match st.existingPageId with
  | some pid => ([.updatePage pid properties], st)
  | none => ([.createPage properties], st)

/-- handleBackgroundSave (src/unnamed/part_004:1762-1800): one update
call when an existing row id is present; otherwise one create call, after
which existingPageId is set to the created row's id so subsequent saves
are updates. -/
def handleBackgroundSaveStep (st : PopupSession) (properties : List (Str × WireValue))
    (newId : Str) : List NotionCall × PopupSession :=
  match st.existingPageId with
  | some pid => ([.updatePage pid properties], st)
  | none => ([.createPage properties], { st with existingPageId := some newId })

/-! ## AI auto-fill of choice fields (src/unnamed/part_003:2058-2073) -/

/-- The DOM options of a rendered select/status widget: the empty
sentinel option followed by the schema option names
(src/unnamed/part_004:1199-1213). -/
def selectDomOptions (optionNames : List Str) : List Str := [] :: optionNames

/-- The select/status branch of fillFormField
(src/unnamed/part_003:2058-2073): a truthy proposed value is matched
case-insensitively against the widget's option values; on a hit the
select takes the matched option's value and the field counts as filled,
otherwise the current value is kept.  Returns (new value, filled). -/
def fillSelectValue (optionNames : List Str) (current : Str) (value : Str) :
    Str × Bool :=
  if value = [] then (current, false)
  else
    match (selectDomOptions optionNames).find?
        (fun o => lowerStr o = lowerStr value) with
    | some m => (m, true)
    | none => (current, false)

/-! ## Helper lemmas -/

theorem jsOrStr_nil (a : Str) : jsOrStr a [] = a := by
  unfold jsOrStr
  split <;> simp_all

theorem lowerStr_eq_nil_iff (s : Str) : lowerStr s = [] ↔ s = [] := by
  simp [lowerStr]

theorem chunksAux_flatten :
    ∀ (fuel : Nat) (content : Str), content.length ≤ fuel →
      (chunksAux fuel content).flatten = content := by
  intro fuel
  induction fuel with
  | zero =>
    intro content h
    have hc : content = [] := List.length_eq_zero.mp (Nat.le_zero.mp h)
    subst hc
    rfl
  | succ n ih =>
    intro content h
    cases content with
    | nil => rfl
    | cons c rest =>
      have hlen : ((c :: rest).drop MAX_CHARS).length ≤ n := by
        simp only [List.length_drop, List.length_cons] at *
        have hM : (0 : Nat) < MAX_CHARS := by norm_num [MAX_CHARS]
        omega
      simp only [chunksAux, List.flatten_cons, ih _ hlen, List.take_append_drop]

theorem chunksAux_mem_length :
    ∀ (fuel : Nat) (content : Str), ∀ r ∈ chunksAux fuel content,
      r.length ≤ MAX_CHARS := by
  intro fuel
  induction fuel with
  | zero =>
    intro content r hr
    cases content <;> simp [chunksAux] at hr
  | succ n ih =>
    intro content r hr
    cases content with
    | nil => simp [chunksAux] at hr
    | cons c rest =>
      simp only [chunksAux, List.mem_cons] at hr
      rcases hr with h | h
      · subst h
        simp [List.length_take]
      · exact ih _ r h

theorem chunksOf2000_ne_nil (s : Str) (h : s ≠ []) : chunksOf2000 s ≠ [] := by
  cases s with
  | nil => exact absurd rfl h
  | cons c rest => simp [chunksOf2000, chunksAux]

theorem chunksOf2000_head (s : Str) (h : s ≠ []) :
    (chunksOf2000 s).headD [] = s.take MAX_CHARS := by
  cases s with
  | nil => exact absurd rfl h
  | cons c rest => simp [chunksOf2000, chunksAux]

theorem chunksOf2000_of_le (s : Str) (h0 : s ≠ []) (h : s.length ≤ MAX_CHARS) :
    chunksOf2000 s = [s] := by
  cases s with
  | nil => exact absurd rfl h0
  | cons c rest =>
    show chunksAux (c :: rest).length (c :: rest) = [c :: rest]
    rw [List.length_cons]
    simp only [chunksAux]
    rw [List.take_of_length_le h, List.drop_eq_nil_of_le h]
    cases rest.length <;> rfl

theorem rich_text_eq_chunks (s : Str) (h : s ≠ []) :
    PropertyFormatters.rich_text s = chunksOf2000 s := by
  unfold PropertyFormatters.rich_text
  have hne := chunksOf2000_ne_nil s h
  simp [List.isEmpty_iff, hne]

theorem rich_text_of_nil : PropertyFormatters.rich_text [] = [[]] := rfl

/-! ## Claim theorems -/

/-- C2: PropertyFormatters.rich_text splits any input into runs of length
at most MAX_CHARS whose concatenation reproduces the input exactly, it
always emits at least one run, and on the empty string it emits exactly
one empty run. -/
theorem rich_text_chunker_correct (s : Str) :
    (∀ r ∈ PropertyFormatters.rich_text s, r.length ≤ MAX_CHARS) ∧
    (PropertyFormatters.rich_text s).flatten = s ∧
    PropertyFormatters.rich_text s ≠ [] ∧
    (s = [] → PropertyFormatters.rich_text s = [[]]) := by
  by_cases hs : s = []
  · subst hs
    refine ⟨?_, ?_, ?_, fun _ => rich_text_of_nil⟩ <;>
      simp [rich_text_of_nil, MAX_CHARS]
  · have hch := rich_text_eq_chunks s hs
    refine ⟨?_, ?_, ?_, fun h => absurd h hs⟩
    · rw [hch]
      exact fun r hr => chunksAux_mem_length _ _ r hr
    · rw [hch]
      exact chunksAux_flatten _ _ le_rfl
    · rw [hch]
      exact chunksOf2000_ne_nil s hs

/-- Witness for C2 at a concrete five-character input. -/
theorem rich_text_chunker_correct_witness :
    (PropertyFormatters.rich_text ("abcde".toList)).flatten = "abcde".toList :=
  (rich_text_chunker_correct ("abcde".toList)).2.1

/-- C1 (counterexample): the rich_text round-trip fails for a string of
2001 characters — the parser reads only the first run, so the serialized
value parses back to the first 2000 characters. -/
theorem rich_text_roundtrip_counterexample :
    PropertyParsers.rich_text
        (PropertyFormatters.rich_text (List.replicate 2001 'a')) ≠
      List.replicate 2001 'a' := by
  have hne : (List.replicate 2001 'a' : Str) ≠ [] := by
    apply List.length_pos.mp
    rw [List.length_replicate]
    norm_num
  rw [rich_text_eq_chunks _ hne]
  unfold PropertyParsers.rich_text
  rw [chunksOf2000_head _ hne, List.take_replicate]
  have hmin : min MAX_CHARS 2001 = 2000 := by norm_num [MAX_CHARS]
  rw [hmin, jsOrStr_nil]
  intro h
  have hl := congrArg List.length h
  simp only [List.length_replicate] at hl
  omega

/-- C1 (amended): for every supported column type, parse after serialize
is the identity on the type's form-value domain, with rich_text
restricted to strings of at most MAX_CHARS characters (longer strings
are truncated by the parser, see the counterexample). -/
theorem registry_roundtrip_amended :
    (∀ s : Str, PropertyParsers.title (PropertyFormatters.title s) = s) ∧
    (∀ s : Str, s.length ≤ MAX_CHARS →
      PropertyParsers.rich_text (PropertyFormatters.rich_text s) = s) ∧
    (∀ s : Str, PropertyParsers.url (PropertyFormatters.url s) = s) ∧
    (∀ v : NumberFormValue,
      PropertyParsers.number (PropertyFormatters.numberOfForm v) = v) ∧
    (∀ b : Bool, PropertyParsers.checkbox (PropertyFormatters.checkbox b) = b) ∧
    (∀ s : Str, PropertyParsers.select (PropertyFormatters.select s) = s) ∧
    (∀ vs : List Str,
      PropertyParsers.multi_select (PropertyFormatters.multi_select vs) = vs) ∧
    (∀ s : Str, PropertyParsers.date (PropertyFormatters.date s) = s) ∧
    (∀ s : Str, PropertyParsers.email (PropertyFormatters.email s) = s) ∧
    (∀ s : Str,
      PropertyParsers.phone_number (PropertyFormatters.phone_number s) = s) ∧
    (∀ s : Str, PropertyParsers.status (PropertyFormatters.status s) = s) := by
  refine ⟨?_, ?_, ?_, ?_, ?_, ?_, ?_, ?_, ?_, ?_, ?_⟩
  · intro s
    simp [PropertyFormatters.title, PropertyParsers.title, jsOrStr_nil]
  · intro s hlen
    by_cases hs : s = []
    · subst hs
      rfl
    · rw [rich_text_eq_chunks s hs, chunksOf2000_of_le s hs hlen]
      simp [PropertyParsers.rich_text, jsOrStr_nil]
  · intro s
    by_cases hs : s = [] <;>
      simp [PropertyFormatters.url, PropertyParsers.url, hs, jsOrStr_nil]
  · intro v
    cases v <;> rfl
  · intro b
    cases b <;> rfl
  · intro s
    by_cases hs : s = [] <;>
      simp [PropertyFormatters.select, PropertyParsers.select, hs, jsOrStr_nil]
  · intro vs
    rfl
  · intro s
    by_cases hs : s = [] <;>
      simp [PropertyFormatters.date, PropertyParsers.date, hs, jsOrStr_nil]
  · intro s
    by_cases hs : s = [] <;>
      simp [PropertyFormatters.email, PropertyParsers.email, hs, jsOrStr_nil]
  · intro s
    by_cases hs : s = [] <;>
      simp [PropertyFormatters.phone_number, PropertyParsers.phone_number, hs,
        jsOrStr_nil]
  · intro s
    by_cases hs : s = [] <;>
      simp [PropertyFormatters.status, PropertyParsers.status, hs, jsOrStr_nil]

/-- Witness for the amended C1 round-trip at a concrete short rich_text
value. -/
theorem registry_roundtrip_amended_witness :
    PropertyParsers.rich_text (PropertyFormatters.rich_text ("hi".toList)) =
      "hi".toList :=
  registry_roundtrip_amended.2.1 ("hi".toList) (by decide)

/-- C7: the number serializer emits the null wire value for an empty or
unparseable input (NaN has no JSON representation and is emitted as null
by JSON.stringify in the service worker), and its emitted wire value is
always either null or a finite number. -/
theorem number_serializer_null_wire :
    (∀ s : Str, (s = [] ∨ jsParseFloat s = JsNum.nan) →
      jsonNumberValue (PropertyFormatters.number s) = none) ∧
    (∀ s : Str, jsonNumberValue (PropertyFormatters.number s) = none ∨
      ∃ q : ℚ, jsParseFloat s = JsNum.num q ∧
        jsonNumberValue (PropertyFormatters.number s) = some q) := by
  constructor
  · intro s h
    rcases h with h | h
    · simp [PropertyFormatters.number, h, jsonNumberValue]
    · by_cases hs : s = [] <;>
        simp [PropertyFormatters.number, hs, h, jsonNumberValue]
  · intro s
    by_cases hs : s = []
    · left
      simp [PropertyFormatters.number, hs, jsonNumberValue]
    · cases hp : jsParseFloat s with
      | nan => left; simp [PropertyFormatters.number, hs, hp, jsonNumberValue]
      | infinite neg => left; simp [PropertyFormatters.number, hs, hp, jsonNumberValue]
      | num q =>
        right
        exact ⟨q, rfl, by simp [PropertyFormatters.number, hs, hp, jsonNumberValue]⟩

/-- Witness for C7: the unparseable input "abc" yields the null wire
value. -/
theorem number_serializer_null_wire_witness :
    jsonNumberValue (PropertyFormatters.number ("abc".toList)) = none :=
  number_serializer_null_wire.1 ("abc".toList) (Or.inr (by decide))

theorem buildPayload_hidden_not_key
    (groups : List (Str × FieldEntry)) (hidden : List Str) (name : Str)
    (h : name ∈ hidden) : ∀ w, (name, w) ∉ buildPayload groups hidden := by
  induction groups with
  | nil =>
    intro w
    simp [buildPayload]
  | cons g rest ih =>
    obtain ⟨n, e⟩ := g
    intro w hw
    by_cases hn : n ∈ hidden
    · rw [buildPayload, if_pos hn] at hw
      exact ih w hw
    · have hne : n ≠ name := fun he => hn (he ▸ h)
      rw [buildPayload, if_neg hn] at hw
      by_cases hp : jsPresent (getFieldValue e)
      · rw [if_pos hp] at hw
        rcases List.mem_cons.mp hw with he | hw
        · exact hne (congrArg Prod.fst he).symm
        · exact ih w hw
      · rw [if_neg hp] at hw
        by_cases ht : isTitleEntry e
        · rw [if_pos ht] at hw
          rcases List.mem_cons.mp hw with he | hw
          · exact hne (congrArg Prod.fst he).symm
          · exact ih w hw
        · rw [if_neg ht] at hw
          exact ih w hw

theorem buildPayload_step_mem
    (rest : List (Str × FieldEntry)) (hidden : List Str) (n : Str)
    (e : FieldEntry) (x : Str × WireValue)
    (hx : x ∈ buildPayload rest hidden) :
    x ∈ buildPayload ((n, e) :: rest) hidden := by
  rw [buildPayload]
  by_cases hn : n ∈ hidden
  · rwa [if_pos hn]
  · rw [if_neg hn]
    by_cases hp : jsPresent (getFieldValue e)
    · rw [if_pos hp]
      exact List.mem_cons_of_mem _ hx
    · rw [if_neg hp]
      by_cases ht : isTitleEntry e
      · rw [if_pos ht]
        exact List.mem_cons_of_mem _ hx
      · rwa [if_neg ht]

theorem buildPayload_title_placeholder
    (groups : List (Str × FieldEntry)) (hidden : List Str) (name : Str)
    (hg : (name, FieldEntry.title []) ∈ groups) (hh : name ∉ hidden) :
    (name, WireValue.title [untitledStr]) ∈ buildPayload groups hidden := by
  induction groups with
  | nil => simp at hg
  | cons g rest ih =>
    obtain ⟨n, e⟩ := g
    rcases List.mem_cons.mp hg with he | hg
    · injection he with h1 h2
      subst h1
      subst h2
      rw [buildPayload, if_neg hh]
      have hp : jsPresent (getFieldValue (FieldEntry.title [])) = false := rfl
      rw [if_neg (by simp [hp]), if_pos (show isTitleEntry (FieldEntry.title []) = true from rfl)]
      have harg :
          WireValue.title (PropertyFormatters.title
              (jsOrStr (strOfJsVal (getFieldValue (FieldEntry.title []))) untitledStr)) =
            WireValue.title [untitledStr] := by decide
      rw [harg]
      exact List.mem_cons_self _ _
    · exact buildPayload_step_mem rest hidden n e _ (ih hg)

theorem buildPayload_present_included
    (groups : List (Str × FieldEntry)) (hidden : List Str) (name : Str)
    (entry : FieldEntry) (hg : (name, entry) ∈ groups) (hh : name ∉ hidden)
    (hp : jsPresent (getFieldValue entry) = true) :
    (name, applyFormatter entry) ∈ buildPayload groups hidden := by
  induction groups with
  | nil => simp at hg
  | cons g rest ih =>
    obtain ⟨n, e⟩ := g
    rcases List.mem_cons.mp hg with he | hg
    · injection he with h1 h2
      subst h1
      subst h2
      rw [buildPayload, if_neg hh, if_pos hp]
      exact List.mem_cons_self _ _
    · exact buildPayload_step_mem rest hidden n e _ (ih hg)

theorem buildPayload_falsy_nontitle_omitted
    (groups : List (Str × FieldEntry)) (hidden : List Str) (name : Str)
    (hall : ∀ entry, (name, entry) ∈ groups →
      isTitleEntry entry = false ∧ jsPresent (getFieldValue entry) = false) :
    ∀ w, (name, w) ∉ buildPayload groups hidden := by
  induction groups with
  | nil =>
    intro w
    simp [buildPayload]
  | cons g rest ih =>
    obtain ⟨n, e⟩ := g
    have ihr := ih (fun entry hmem => hall entry (List.mem_cons_of_mem _ hmem))
    intro w hw
    by_cases hn : n ∈ hidden
    · rw [buildPayload, if_pos hn] at hw
      exact ihr w hw
    · rw [buildPayload, if_neg hn] at hw
      by_cases hname : n = name
      · subst hname
        obtain ⟨hnt, hnp⟩ := hall e (List.mem_cons_self _ _)
        rw [if_neg (by simp [hnp]), if_neg (by simp [hnt])] at hw
        exact ihr w hw
      · by_cases hp : jsPresent (getFieldValue e)
        · rw [if_pos hp] at hw
          rcases List.mem_cons.mp hw with he | hw
          · exact hname (congrArg Prod.fst he).symm
          · exact ihr w hw
        · rw [if_neg hp] at hw
          by_cases ht : isTitleEntry e
          · rw [if_pos ht] at hw
            rcases List.mem_cons.mp hw with he | hw
            · exact hname (congrArg Prod.fst he).symm
            · exact ihr w hw
          · rw [if_neg ht] at hw
            exact ihr w hw

/-- C3 (counterexample): a multi_select field with an empty selection is
NOT omitted from the payload — its key is present with an empty
multi_select list, because an empty JS array passes the
value !== '' guard. -/
theorem empty_multi_select_included_counterexample :
    buildPayload [(("Tags".toList), FieldEntry.multi_select [])] [] =
      [(("Tags".toList), WireValue.multiSelect [])] := by decide

/-- C3 (amended): buildPayload never emits a hidden field, always emits a
title field (substituting the placeholder Untitled when its value is
empty), emits every non-hidden field whose JS form value passes the
presence guard, and omits a field all of whose entries are non-title with
a form value that is the empty string or null.  Checkbox and multi_select
values always pass the guard (false and the empty array are included). -/
theorem buildPayload_amended
    (groups : List (Str × FieldEntry)) (hidden : List Str) (name : Str) :
    (name ∈ hidden → ∀ w, (name, w) ∉ buildPayload groups hidden) ∧
    ((name, FieldEntry.title []) ∈ groups → name ∉ hidden →
      (name, WireValue.title [untitledStr]) ∈ buildPayload groups hidden) ∧
    (∀ entry, (name, entry) ∈ groups → name ∉ hidden →
      jsPresent (getFieldValue entry) = true →
      (name, applyFormatter entry) ∈ buildPayload groups hidden) ∧
    ((∀ entry, (name, entry) ∈ groups →
        isTitleEntry entry = false ∧ jsPresent (getFieldValue entry) = false) →
      ∀ w, (name, w) ∉ buildPayload groups hidden) :=
  ⟨fun hh => buildPayload_hidden_not_key groups hidden name hh,
   fun hg hh => buildPayload_title_placeholder groups hidden name hg hh,
   fun entry hg hh hp => buildPayload_present_included groups hidden name entry hg hh hp,
   fun hall => buildPayload_falsy_nontitle_omitted groups hidden name hall⟩

/-- Witness for the amended C3: a concrete form with an empty title, a
hidden non-empty URL field and an empty select produces exactly the
placeholder title binding. -/
theorem buildPayload_amended_witness :
    (("Name".toList, WireValue.title [untitledStr]) ∈
      buildPayload
        [("Name".toList, FieldEntry.title []),
         ("URL".toList, FieldEntry.url ("https://x.test".toList)),
         ("Status".toList, FieldEntry.select [])]
        [("URL".toList)]) ∧
    (∀ w, ("URL".toList, w) ∉
      buildPayload
        [("Name".toList, FieldEntry.title []),
         ("URL".toList, FieldEntry.url ("https://x.test".toList)),
         ("Status".toList, FieldEntry.select [])]
        [("URL".toList)]) :=
  ⟨(buildPayload_amended _ _ _).2.1 (by decide) (by decide),
   (buildPayload_amended _ _ _).1 (by decide)⟩

/-- C4: the documented examples of the tiered location matcher, evaluated
on the embedded findBestLocationMatch: a contained option name wins, the
keyword family resolves SF Bay Area, a remote mention resolves to the
Remote option, and an unknown city matches nothing. -/
theorem findBestLocationMatch_examples :
    findBestLocationMatch ("San Francisco, CA".toList)
        [⟨"Remote".toList⟩, ⟨"San Francisco".toList⟩, ⟨"New York".toList⟩] =
      some ("San Francisco".toList) ∧
    findBestLocationMatch ("SF Bay Area".toList)
        [⟨"Remote".toList⟩, ⟨"San Francisco".toList⟩, ⟨"New York".toList⟩] =
      some ("San Francisco".toList) ∧
    findBestLocationMatch ("fully remote role".toList)
        [⟨"Remote".toList⟩, ⟨"Onsite".toList⟩] = some ("Remote".toList) ∧
    findBestLocationMatch ("Berlin".toList)
        [⟨"Remote".toList⟩, ⟨"San Francisco".toList⟩] = none := by
  refine ⟨?_, ?_, ?_, ?_⟩ <;> decide

/-- C9: the state-code tier of findBestLocationMatch is dead code — the
regex requires two uppercase letters but runs on the lower-cased
location, so an input whose only possible match is the trailing
two-letter state code returns null instead of the matching option. -/
theorem state_code_tier_dead :
    findBestLocationMatch ("Portland, OR".toList)
        [⟨"Remote".toList⟩, ⟨"Portland OR Office".toList⟩] = none ∧
    findStateCode (trimStr (lowerStr ("Portland, OR".toList))) = none := by
  refine ⟨?_, ?_⟩ <;> decide

theorem firstMatch_sound (p : SelectOption → Bool) (options : List SelectOption)
    (n : Str) (h : firstMatch p options = some n) :
    ∃ o ∈ options, o.name = n := by
  unfold firstMatch at h
  obtain ⟨o, hfind, hname⟩ := Option.map_eq_some'.mp h
  exact ⟨o, List.mem_of_find?_eq_some hfind, hname⟩

theorem matchFamilies_sound (location : Str) (options : List SelectOption) :
    ∀ (pats : List ((Str → Bool) × List Str)) (n : Str),
      matchFamilies location options pats = some n → ∃ o ∈ options, o.name = n := by
  intro pats
  induction pats with
  | nil =>
    intro n h
    simp [matchFamilies] at h
  | cons p rest ih =>
    obtain ⟨test, keywords⟩ := p
    intro n h
    rw [matchFamilies] at h
    by_cases ht : test location
    · rw [if_pos ht] at h
      rcases hm : firstMatch
          (fun o => keywords.any (fun k => containsSub (lowerStr o.name) k)) options with
        _ | m
      · rw [hm] at h
        exact ih n h
      · rw [hm] at h
        cases h
        exact firstMatch_sound _ _ _ hm
    · rw [if_neg ht] at h
      exact ih n h

theorem orElse_chain_sound {α : Type} (P : α → Prop)
    (a b c d e f : Option α)
    (ha : ∀ x, a = some x → P x) (hb : ∀ x, b = some x → P x)
    (hc : ∀ x, c = some x → P x) (hd : ∀ x, d = some x → P x)
    (he : ∀ x, e = some x → P x) (hf : ∀ x, f = some x → P x) :
    ∀ x, (a <|> b <|> c <|> d <|> e <|> f) = some x → P x := by
  intro x h
  rcases a with _ | va
  · simp only [Option.none_orElse] at h
    rcases b with _ | vb
    · simp only [Option.none_orElse] at h
      rcases c with _ | vc
      · simp only [Option.none_orElse] at h
        rcases d with _ | vd
        · simp only [Option.none_orElse] at h
          rcases e with _ | ve
          · simp only [Option.none_orElse] at h
            exact hf x h
          · rw [Option.some_orElse] at h
            cases h
            exact he _ rfl
        · rw [Option.some_orElse] at h
          cases h
          exact hd _ rfl
      · rw [Option.some_orElse] at h
        cases h
        exact hc _ rfl
    · rw [Option.some_orElse] at h
      cases h
      exact hb _ rfl
  · rw [Option.some_orElse] at h
    cases h
    exact ha _ rfl

/-- C10: findBestLocationMatch never fabricates a value — its result is
null or the name of one of the supplied options, and it is null for an
empty options list or empty free text. -/
theorem findBestLocationMatch_sound
    (extractedLocation : Str) (options : List SelectOption) :
    (extractedLocation = [] ∨ options = [] →
      findBestLocationMatch extractedLocation options = none) ∧
    (findBestLocationMatch extractedLocation options = none ∨
      ∃ o ∈ options,
        findBestLocationMatch extractedLocation options = some o.name) := by
  constructor
  · intro h
    unfold findBestLocationMatch
    rw [if_pos h]
  · by_cases hguard : extractedLocation = [] ∨ options = []
    · left
      unfold findBestLocationMatch
      rw [if_pos hguard]
    · rcases hres : findBestLocationMatch extractedLocation options with _ | n
      · exact Or.inl rfl
      · right
        unfold findBestLocationMatch at hres
        rw [if_neg hguard] at hres
        have hsound :
            ∃ o ∈ options, o.name = n := by
          refine orElse_chain_sound (fun x => ∃ o ∈ options, o.name = x)
            _ _ _ _ _ _
            (fun x hx => firstMatch_sound _ _ _ hx)
            (fun x hx => firstMatch_sound _ _ _ hx)
            (fun x hx => firstMatch_sound _ _ _ hx)
            ?_
            (fun x hx => matchFamilies_sound _ _ _ _ hx)
            ?_ n hres
          · intro x hx
            split at hx
            · exact firstMatch_sound _ _ _ hx
            · cases hx
          · intro x hx
            rcases hsc : findStateCode (trimStr (lowerStr extractedLocation)) with _ | code
            · rw [hsc] at hx
              cases hx
            · rw [hsc] at hx
              exact firstMatch_sound _ _ _ hx
        obtain ⟨o, ho, hname⟩ := hsound
        exact ⟨o, ho, by rw [hname]⟩

/-- Witness for C10: the empty options list yields null. -/
theorem findBestLocationMatch_sound_witness :
    findBestLocationMatch ("Anywhere".toList) [] = none :=
  (findBestLocationMatch_sound ("Anywhere".toList) []).1 (Or.inr rfl)

/-- C5 (counterexample): handleSubmit does not record the id of a page it
just created — after a successful create the session still has no
existingPageId, so a second submit in the same session issues a second
create call instead of an update. -/
theorem handleSubmit_stays_create_counterexample :
    (handleSubmitStep ⟨none⟩ [] ("id1".toList)).2.existingPageId = none ∧
    (handleSubmitStep (handleSubmitStep ⟨none⟩ [] ("id1".toList)).2 []
        ("id2".toList)).1 = [NotionCall.createPage []] := by
  constructor <;> rfl

/-- C5 (amended): each submit issues exactly one call — create without an
existing row, update referencing the stored row id with one; handleSubmit
leaves the mode unchanged after a create, and only handleBackgroundSave
transitions the session to update-mode by storing the created row's id. -/
theorem submit_calls_amended (st : PopupSession)
    (props : List (Str × WireValue)) (newId : Str) :
    (st.existingPageId = none →
      handleSubmitStep st props newId = ([NotionCall.createPage props], st)) ∧
    (∀ pid, st.existingPageId = some pid →
      handleSubmitStep st props newId = ([NotionCall.updatePage pid props], st)) ∧
    (st.existingPageId = none →
      (handleBackgroundSaveStep st props newId).1 = [NotionCall.createPage props] ∧
      (handleBackgroundSaveStep st props newId).2.existingPageId = some newId) ∧
    (∀ pid, st.existingPageId = some pid →
      handleBackgroundSaveStep st props newId =
        ([NotionCall.updatePage pid props], st)) := by
  obtain ⟨epid⟩ := st
  cases epid with
  | none =>
    refine ⟨fun _ => rfl, ?_, fun _ => ⟨rfl, rfl⟩, ?_⟩ <;>
      exact fun pid hpid => by cases hpid
  | some pid0 =>
    refine ⟨?_, ?_, ?_, ?_⟩
    · intro h
      cases h
    · intro pid hpid
      injection hpid with h1
      subst h1
      rfl
    · intro h
      cases h
    · intro pid hpid
      injection hpid with h1
      subst h1
      rfl

/-- Witness for the amended C5: with a found existing row the submit is a
single update call naming that row's id. -/
theorem submit_calls_amended_witness :
    handleSubmitStep ⟨some ("p1".toList)⟩ [] ("n".toList) =
      ([NotionCall.updatePage ("p1".toList) []], ⟨some ("p1".toList)⟩) :=
  (submit_calls_amended ⟨some ("p1".toList)⟩ [] ("n".toList)).2.1 ("p1".toList) rfl

/-- C6 (counterexample): a parsed existing value that is the empty string
is NOT used for pre-population — the falsy check falls back to the
heuristic default, here the tab title. -/
theorem existing_empty_value_overridden_counterexample :
    edLookup [(("Title".toList), [])] ("Title".toList) = some [] ∧
    renderTitleValue ("Title".toList)
        ⟨[], ("Acme Careers".toList), [], [], [], []⟩
        (some [(("Title".toList), [])]) = ("Acme Careers".toList) := by
  constructor <;> decide

/-- C6 (amended): a NON-EMPTY parsed existing value takes precedence over
every heuristic default in the title and rich_text renderers; empty
parsed values are treated as absent and the signal-derived default
applies instead. -/
theorem existing_truthy_precedence_amended
    (name : Str) (tab : TabSignals) (ed : List (Str × Str)) (v : Str)
    (hlook : edLookup ed name = some v) (hv : v ≠ []) :
    renderTitleValue name tab (some ed) = v ∧
    renderRichTextValue name tab (some ed) = v := by
  constructor <;>
    simp [renderTitleValue, renderRichTextValue, hlook, jsOrStr, hv]

/-- Witness for the amended C6 at a concrete existing row. -/
theorem existing_truthy_precedence_amended_witness :
    renderTitleValue ("Status".toList) ⟨[], [], [], [], [], []⟩
        (some [(("Status".toList), ("Applied".toList))]) = ("Applied".toList) :=
  (existing_truthy_precedence_amended ("Status".toList) ⟨[], [], [], [], [], []⟩
      [(("Status".toList), ("Applied".toList))] ("Applied".toList)
      (by decide) (by decide)).1

/-- C8: the AI-fill handler for select/status fields applies a proposed
value only when it matches one of the widget's option values
case-insensitively; otherwise the field keeps its current value and is
not counted as filled. -/
theorem ai_select_fill_guard (optionNames : List Str) (current value : Str) :
    ((∀ o ∈ optionNames, lowerStr o ≠ lowerStr value) →
      fillSelectValue optionNames current value = (current, false)) ∧
    (∀ newVal, fillSelectValue optionNames current value = (newVal, true) →
      newVal ∈ optionNames ∧ lowerStr newVal = lowerStr value) := by
  constructor
  · intro hno
    unfold fillSelectValue
    by_cases hv : value = []
    · rw [if_pos hv]
    · rw [if_neg hv]
      have hfind : (selectDomOptions optionNames).find?
          (fun o => lowerStr o = lowerStr value) = none := by
        rw [List.find?_eq_none]
        intro o ho
        rcases List.mem_cons.mp ho with he | ho
        · subst he
          simp only [decide_eq_true_eq]
          intro habs
          exact hv ((lowerStr_eq_nil_iff value).mp habs.symm)
        · simp only [decide_eq_true_eq]
          exact hno o ho
      rw [hfind]
  · intro newVal h
    unfold fillSelectValue at h
    by_cases hv : value = []
    · rw [if_pos hv] at h
      cases h
    · rw [if_neg hv] at h
      rcases hfind : (selectDomOptions optionNames).find?
          (fun o => lowerStr o = lowerStr value) with _ | m
      · rw [hfind] at h
        cases h
      · rw [hfind] at h
        injection h with h1 h2
        subst h1
        have hp := List.find?_some hfind
        simp only [decide_eq_true_eq] at hp
        have hm := List.mem_of_find?_eq_some hfind
        rcases List.mem_cons.mp hm with he | hm
        · exfalso
          subst he
          exact hv ((lowerStr_eq_nil_iff value).mp hp.symm)
        · exact ⟨hm, hp⟩

/-- Witness for C8: a proposed value outside the option list leaves the
field unchanged. -/
theorem ai_select_fill_guard_witness :
    fillSelectValue [("Applied".toList)] ("Old".toList) ("Rejected".toList) =
      (("Old".toList), false) :=
  (ai_select_fill_guard [("Applied".toList)] ("Old".toList)
      ("Rejected".toList)).1 (by decide)

end JobOrganizer

